/-
  Verification of the Ordo restaurant ordering/reservation backend.

  Shallow embedding of the tRPC routers in `apps/api/src/routers` (order,
  reservation) together with the authorization middleware and the request
  context.  Money amounts (Prisma `Decimal` converted with `Number(...)` in
  the handlers) are modelled as rationals; the database is modelled as an
  explicit record of rows threaded through each procedure; a thrown
  `TRPCError` is modelled as `Except.error` carrying the error code.  Every
  handler throws only before its first write, so an `Except.error` result
  leaves the store unchanged by construction, matching the sequential
  behaviour of the handlers.
-/
import Mathlib

namespace Ordo

/-- tRPC error codes used by the routers (plus `DB_ERROR` for the error the
ORM itself raises when an `update`'s `where: {id}` matches no row). -/
inductive ErrCode where
  | UNAUTHORIZED
  | FORBIDDEN
  | NOT_FOUND
  | CONFLICT
  | PRECONDITION_FAILED
  | BAD_REQUEST
  | DB_ERROR
  deriving DecidableEq, Repr

/-- JavaScript string truthiness for an optional string field:
`undefined`/absent and the empty string are falsy. -/
def strTruthy : Option String → Bool
  | none => false
  | some s => s ≠ ""

/-- `ItemModifier` row: a modifier owned by a menu item. -/
structure ItemModifier where
  id : Nat
  name : String
  priceAdjustment : ℚ
  deriving DecidableEq, Repr

/-- `MenuItem` row with its included modifiers. -/
structure MenuItem where
  id : Nat
  price : ℚ
  isAvailable : Bool
  modifiers : List ItemModifier
  deriving DecidableEq, Repr

/-- One requested modifier inside an order line item
(`{modifierId, selectedOptions?}`). -/
structure RequestedModifier where
  modifierId : Nat
  selectedOptions : Option (List String)
  deriving DecidableEq, Repr

/-- One requested line item of `createOrderSchema.items`. -/
structure OrderItemRequest where
  menuItemId : Nat
  quantity : Nat
  specialInstructions : Option String
  modifiers : Option (List RequestedModifier)
  deriving DecidableEq, Repr

/-- `customerInfo` of `createOrderSchema`. -/
structure CustomerInfo where
  name : String
  phone : String
  email : Option String
  deriving DecidableEq, Repr

/-- Delivery address payload (coordinates and references elided: the
handlers only store the object opaquely). -/
structure DeliveryAddress where
  street : String
  neighborhood : String
  city : String
  deriving DecidableEq, Repr

inductive OrderType where
  | DINE_IN
  | TAKEOUT
  | DELIVERY
  deriving DecidableEq, Repr

inductive PaymentMethod where
  | cash
  | card
  | transfer
  deriving DecidableEq, Repr

/-- Full input of `order.create`. -/
structure CreateOrderInput where
  orderType : OrderType
  items : List OrderItemRequest
  customerInfo : CustomerInfo
  deliveryAddress : Option DeliveryAddress
  tableNumber : Option Nat
  specialInstructions : Option String
  paymentMethod : PaymentMethod
  deriving DecidableEq, Repr

/-- `deliveryConfig` JSON of the restaurant configuration.  Every field can
be absent in the JSON, and the handler guards them with JS truthiness
(`deliveryConfig.fee || 0`, `deliveryConfig.is_free_over_amount && ...`). -/
structure DeliveryConfig where
  fee : Option ℚ
  minimum_order : Option ℚ
  is_free_over_amount : Option ℚ
  deriving DecidableEq, Repr

/-- `services` JSON of the restaurant configuration. -/
structure Services where
  reservations : Bool
  deriving DecidableEq, Repr

/-- Per-weekday schedule inside `openingHours`. -/
structure DaySchedule where
  «open» : String
  close : String
  is_closed : Bool
  deriving DecidableEq, Repr

/-- `RestaurantConfig` row.  `openingHours` is a JSON object indexed by the
lowercase weekday name; absent days give `none` (JS `undefined`). -/
structure RestaurantConfig where
  isActive : Bool
  services : Services
  openingHours : String → Option DaySchedule
  deliveryConfig : Option DeliveryConfig

/-- `Customer` row. -/
structure Customer where
  id : Nat
  phone : String
  name : String
  email : Option String
  addresses : List DeliveryAddress
  deriving DecidableEq, Repr

/-- Modifier snapshot stored on an order item (`modifiersApplied` entries). -/
structure AppliedModifier where
  id : Nat
  name : String
  priceAdjustment : ℚ
  selectedOptions : Option (List String)
  deriving DecidableEq, Repr

/-- `OrderItem` row as built in `processedItems`. -/
structure ProcessedItem where
  menuItemId : Nat
  quantity : Nat
  unitPrice : ℚ
  totalPrice : ℚ
  specialInstructions : Option String
  modifiers : Option (List AppliedModifier)
  deriving DecidableEq, Repr

inductive OrderStatus where
  | PENDING
  | CONFIRMED
  | PREPARING
  | READY
  | OUT_FOR_DELIVERY
  | DELIVERED
  | COMPLETED
  | CANCELLED
  deriving DecidableEq, Repr

/-- `Order` row (timestamps modelled as abstract `Nat` instants). -/
structure OrderRec where
  id : Nat
  orderNumber : String
  customerId : Nat
  orderType : OrderType
  status : OrderStatus
  subtotal : ℚ
  taxAmount : ℚ
  deliveryFee : ℚ
  tipAmount : ℚ
  discountAmount : ℚ
  total : ℚ
  customerName : String
  customerPhone : String
  paymentStatus : String
  paymentReference : Option String
  paymentMethod : PaymentMethod
  orderItems : List ProcessedItem
  readyAt : Option Nat
  deliveredAt : Option Nat
  estimatedReadyTime : Option Nat
  deriving DecidableEq, Repr

inductive ReservationStatus where
  | PENDING
  | CONFIRMED
  | SEATED
  | COMPLETED
  | CANCELLED
  | NO_SHOW
  deriving DecidableEq, Repr

/-- `Reservation` row.  `reservationDate` is the stored date (modelled as an
abstract day number — no claim ties a concrete calendar date to a weekday,
the handlers derive the weekday through `Date.getDay`, modelled below);
`reservationTime` is the stored `TIME` string (`HH:MM:SS`). -/
structure Reservation where
  id : Nat
  customerId : Nat
  customerName : String
  customerPhone : String
  reservationDate : Nat
  reservationTime : String
  partySize : Nat
  status : ReservationStatus
  deriving DecidableEq, Repr

/-- Input of `reservation.create` (after zod validation: the date is not in
the past, the time matches `HH:MM`, `1 ≤ partySize ≤ 20`).  The date is the
abstract day number of the requested date. -/
structure CreateReservationInput where
  customerName : String
  customerPhone : String
  reservationDate : Nat
  reservationTime : String
  partySize : Nat
  deriving DecidableEq, Repr

/-- The relational store visible to the routers, plus a counter for the
fresh ids the ORM generates. -/
structure Db where
  menuItems : List MenuItem
  configs : List RestaurantConfig
  customers : List Customer
  orders : List OrderRec
  reservations : List Reservation
  nextId : Nat

/-- Authenticated staff identity carried by the request context
(`ctx.user`), `none` when the bearer token is absent or invalid. -/
structure CtxUser where
  id : String
  email : String
  role : String
  deriving DecidableEq, Repr

/-- `prisma.restaurantConfig.findFirst({where: {isActive: true}})`. -/
def findActiveConfig (db : Db) : Option RestaurantConfig :=
  db.configs.find? (fun c => c.isActive)

/-- `new Date(d).getDay()` composed with the `dayNames` lookup of the
reservation router: the weekday name of an abstract day number.  Day 0 is
taken as a Sunday; no claim depends on which concrete date is which
weekday, only on the schedule attached to the derived name. -/
def dayNames : List String :=
  ["sunday", "monday", "tuesday", "wednesday", "thursday", "friday", "saturday"]

def dayOfWeek (date : Nat) : String :=
  dayNames.getD (date % 7) ""

/-! ### Order workflow — `order.create` pricing -/

/-- One step of the modifier loop of `order.create`: look the requested
modifier up among the menu item's modifiers; when found, add its
`priceAdjustment` to the running price and push the snapshot; a requested
id not on the item contributes nothing. -/
def applyModStep (menuItem : MenuItem) (acc : ℚ × List AppliedModifier)
    (mod : RequestedModifier) : ℚ × List AppliedModifier :=
  match menuItem.modifiers.find? (fun m => m.id == mod.modifierId) with
  | some modifier =>
      (acc.1 + modifier.priceAdjustment,
       acc.2 ++ [{ id := modifier.id, name := modifier.name,
                   priceAdjustment := modifier.priceAdjustment,
                   selectedOptions := mod.selectedOptions }])
  | none => acc

/-- The `itemPrice` / `modifiersApplied` accumulation of `order.create`:
start from the base price and fold the requested modifiers (the `if
(item.modifiers)` guard: an absent list leaves the base price). -/
def applyModifiers (menuItem : MenuItem) :
    Option (List RequestedModifier) → ℚ × List AppliedModifier
  | none => (menuItem.price, [])
  | some ms => ms.foldl (applyModStep menuItem) (menuItem.price, [])

/-- The item-validation/pricing loop of `order.create`: resolves every
requested line item, failing with `NOT_FOUND` when the menu item is missing
or unavailable, and returns the accumulated subtotal together with the
processed items. -/
def processItems (db : Db) : List OrderItemRequest → Except ErrCode (ℚ × List ProcessedItem)
  | [] => .ok (0, [])
  | item :: rest =>
    match db.menuItems.find? (fun m => m.id == item.menuItemId) with
    | none => .error .NOT_FOUND
    | some menuItem =>
      if !menuItem.isAvailable then .error .NOT_FOUND
      else
        let r := applyModifiers menuItem item.modifiers
        let totalItemPrice := r.1 * (item.quantity : ℚ)
        match processItems db rest with
        | .error e => .error e
        | .ok (subRest, psRest) =>
            .ok (totalItemPrice + subRest,
                 { menuItemId := item.menuItemId,
                   quantity := item.quantity,
                   unitPrice := r.1,
                   totalPrice := totalItemPrice,
                   specialInstructions := item.specialInstructions,
                   modifiers := if r.2.length > 0 then some r.2 else none } :: psRest)

/-- The delivery-fee block of `order.create`: only `DELIVERY` orders load
the active configuration; with a `deliveryConfig` present, the fee is the
configured fee (`|| 0`), the order fails with `PRECONDITION_FAILED` when
the subtotal is under `minimum_order` (a JS comparison against an absent
minimum is false), and the fee is waived above a truthy
`is_free_over_amount`. -/
def computeDeliveryFee (db : Db) (orderType : OrderType) (subtotal : ℚ) :
    Except ErrCode ℚ :=
  match orderType with
  | .DELIVERY =>
    match findActiveConfig db with
    | some config =>
      match config.deliveryConfig with
      | some dc =>
        let fee := dc.fee.getD 0
        if (match dc.minimum_order with
            | some m => decide (subtotal < m)
            | none => false)
        then .error .PRECONDITION_FAILED
        else
          .ok (if (match dc.is_free_over_amount with
                   | some a => decide (a ≠ 0) && decide (a ≤ subtotal)
                   | none => false)
               then 0 else fee)
      | none => .ok 0
    | none => .ok 0
  | _ => .ok 0

/-- Result record of `dbUtils.calculateOrderTotal`. -/
structure OrderTotals where
  subtotal : ℚ
  taxAmount : ℚ
  deliveryFee : ℚ
  tipAmount : ℚ
  discountAmount : ℚ
  total : ℚ
  deriving DecidableEq, Repr

/-- Modelled from the spec: `dbUtils.calculateOrderTotal` lives in the
`@ordo/database` package, which is not among the sources; per the spec,
tax = subtotal × fixed rate and
total = subtotal + tax + deliveryFee + tip − discount. -/
def calculateOrderTotal (subtotal taxRate deliveryFee tip discount : ℚ) :
    OrderTotals :=
  let tax := subtotal * taxRate
  { subtotal := subtotal, taxAmount := tax, deliveryFee := deliveryFee,
    tipAmount := tip, discountAmount := discount,
    total := subtotal + tax + deliveryFee + tip - discount }

/-- Modelled from the spec: `dbUtils.generateOrderNumber` is in the missing
`@ordo/database` package; per the spec it yields a unique human-readable
number, modelled from the store's fresh-id counter. -/
def generateOrderNumber (db : Db) : String :=
  "ORD-" ++ toString db.nextId

/-- Fresh ORM-generated row id: the handlers never inspect the cuid
strings the ORM generates, so ids are modelled as consecutive naturals
drawn from the store's counter. -/
def freshId (db : Db) : Nat :=
  db.nextId

/-- The customer resolve-or-create block of `order.create`: look the
customer up by phone; create one (with the delivery address when given)
when absent; otherwise backfill only a falsy name/email from the request
(`!customer.name && customerInfo.name` etc.). -/
def resolveCustomerOrder (db : Db) (ci : CustomerInfo)
    (deliveryAddress : Option DeliveryAddress) : Db × Customer :=
  match db.customers.find? (fun c => c.phone == ci.phone) with
  | none =>
      let c : Customer :=
        { id := freshId db, phone := ci.phone, name := ci.name,
          email := ci.email,
          addresses := match deliveryAddress with
                       | some a => [a]
                       | none => [] }
      ({ db with customers := db.customers ++ [c], nextId := db.nextId + 1 }, c)
  | some c =>
      let c' : Customer :=
        { c with
          name := if c.name == "" && ci.name != "" then ci.name else c.name,
          email := if !(strTruthy c.email) && strTruthy ci.email then ci.email
                   else c.email }
      ({ db with customers :=
           db.customers.map (fun x => if x.id == c.id then c' else x) }, c')

/-- `order.create`: price the items, compute the delivery fee, total via
`calculateOrderTotal(subtotal, 0.16, deliveryFee, 0, 0)`, resolve the
customer, and persist the order aggregate.  `tipAmount` and
`discountAmount` are not supplied to the insert; they take the schema
default, which per the spec is 0 (the schema itself is outside the
sources). -/
def orderCreate (db : Db) (input : CreateOrderInput) :
    Except ErrCode (Db × OrderRec) :=
  match processItems db input.items with
  | .error e => .error e
  | .ok (subtotal, processedItems) =>
    match computeDeliveryFee db input.orderType subtotal with
    | .error e => .error e
    | .ok deliveryFee =>
      let totals := calculateOrderTotal subtotal (16/100) deliveryFee 0 0
      let rc := resolveCustomerOrder db input.customerInfo input.deliveryAddress
      let db1 := rc.1
      let customer := rc.2
      let order : OrderRec :=
        { id := freshId db1,
          orderNumber := generateOrderNumber db1,
          customerId := customer.id,
          orderType := input.orderType,
          status := .PENDING,
          subtotal := totals.subtotal,
          taxAmount := totals.taxAmount,
          deliveryFee := totals.deliveryFee,
          tipAmount := 0,
          discountAmount := 0,
          total := totals.total,
          customerName := input.customerInfo.name,
          customerPhone := input.customerInfo.phone,
          paymentStatus := "PENDING",
          paymentReference := none,
          paymentMethod := input.paymentMethod,
          orderItems := processedItems,
          readyAt := none,
          deliveredAt := none,
          estimatedReadyTime := none }
      .ok ({ db1 with orders := db1.orders ++ [order], nextId := db1.nextId + 1 },
           order)

/-! ### Order workflow — status and payment mutation -/

def findOrder (db : Db) (id : Nat) : Option OrderRec :=
  db.orders.find? (fun o => o.id == id)

def updateOrderRow (db : Db) (id : Nat) (f : OrderRec → OrderRec) : Db :=
  { db with orders := db.orders.map (fun o => if o.id == id then f o else o) }

/-- `order.updateStatus`: set the status, stamp `readyAt` on `READY` and
`deliveredAt` on `DELIVERED`, optionally set `estimatedReadyTime`; the ORM
`update` itself errors when the id matches no row. -/
def updateStatus (db : Db) (id : Nat) (status : OrderStatus)
    (estimatedReadyTime : Option Nat) (now : Nat) :
    Except ErrCode (Db × OrderRec) :=
  match findOrder db id with
  | none => .error .DB_ERROR
  | some o =>
    let o' : OrderRec :=
      { o with
        status := status,
        readyAt := if status = .READY then some now else o.readyAt,
        deliveredAt := if status = .DELIVERED then some now else o.deliveredAt,
        estimatedReadyTime := match estimatedReadyTime with
                              | some t => some t
                              | none => o.estimatedReadyTime }
    .ok (updateOrderRow db id (fun _ => o'), o')

/-- `order.confirmPayment`: set `paymentStatus = PAID` (and the reference
when given); with a truthy positive tip, re-read the stored
subtotal/tax/fee/discount of the order and recompute
`total = subtotal + tax + fee + tip − discount`. -/
def confirmPayment (db : Db) (id : Nat) (paymentReference : Option String)
    (tipAmount : Option ℚ) : Except ErrCode (Db × OrderRec) :=
  match findOrder db id with
  | none => .error .DB_ERROR
  | some o =>
    let withPay : OrderRec :=
      { o with
        paymentStatus := "PAID",
        paymentReference := if strTruthy paymentReference then paymentReference
                            else o.paymentReference }
    let o' : OrderRec :=
      match tipAmount with
      | some tip =>
        if tip ≠ 0 ∧ 0 < tip then
          { withPay with
            tipAmount := tip,
            total := o.subtotal + o.taxAmount + o.deliveryFee + tip
                       - o.discountAmount }
        else withPay
      | none => withPay
    .ok (updateOrderRow db id (fun _ => o'), o')

/-! ### Reservation workflow -/

/-- `str.split(sep)` on the character list (these handlers only split ASCII
`HH:MM[:SS]` strings). -/
def jsSplitAux (sep : Char) : List Char → List Char → List String
  | [], acc => [String.mk acc.reverse]
  | c :: rest, acc =>
    if c == sep then String.mk acc.reverse :: jsSplitAux sep rest []
    else jsSplitAux sep rest (c :: acc)

def jsSplit (sep : Char) (s : String) : List String :=
  jsSplitAux sep s.data []

/-- A decimal digit's value. -/
def decDigit? (c : Char) : Option Nat :=
  if 48 ≤ c.toNat ∧ c.toNat ≤ 57 then some (c.toNat - 48) else none

def natOfDigits : List Char → Nat → Option Nat
  | [], acc => some acc
  | c :: rest, acc =>
    match decDigit? c with
    | some d => natOfDigits rest (acc * 10 + d)
    | none => none

/-- `Number(str)` restricted to the non-negative decimal integers these
handlers feed it (`none` models `NaN`). -/
def parseNat (s : String) : Option Nat :=
  match s.data with
  | [] => none
  | l => natOfDigits l 0

/-- `str.slice(0, n)`. -/
def strTake (s : String) (n : Nat) : String :=
  String.mk (s.data.take n)

/-- `time.split(':').map(Number)` destructured as `[hours, minutes]`, then
`hours * 60 + minutes`.  Defined (like the handler) for well-formed `HH:MM`
strings — requests are zod-validated against that shape and configuration
times are assumed well-formed; a missing component reads as 0. -/
def timeToMinutes (s : String) : Nat :=
  let parts := jsSplit ':' s
  ((parseNat (parts.getD 0 "")).getD 0) * 60 + ((parseNat (parts.getD 1 "")).getD 0)

/-- `n.toString().padStart(2, '0')`. -/
def pad2 (n : Nat) : String :=
  if n < 10 then "0" ++ toString n else toString n

/-- The slot label built in `getAvailableTimes` from minutes since
midnight. -/
def timeString (minutes : Nat) : String :=
  pad2 (minutes / 60) ++ ":" ++ pad2 (minutes % 60)

/-- The slot-generation `while` loop of `getAvailableTimes`: every 30
minutes from the opening time while `currentMinutes ≤ cutoff`; the cutoff
(closing − 120) is an integer, negative when the closing time is before
02:00. -/
def genSlotsAux : Nat → Nat → Int → List String
  | 0, _, _ => []
  | fuel + 1, current, cutoff =>
    if (current : Int) ≤ cutoff then
      timeString current :: genSlotsAux fuel (current + 30) cutoff
    else []

def genSlots (current : Nat) (cutoff : Int) : List String :=
  genSlotsAux (cutoff + 1 - (current : Int)).toNat current cutoff

/-- The customer resolve-or-create block of `reservation.create`: no
backfill, the new row carries the request's name and no email or
addresses. -/
def resolveCustomerRes (db : Db) (customerPhone customerName : String) :
    Db × Customer :=
  match db.customers.find? (fun c => c.phone == customerPhone) with
  | none =>
      let c : Customer :=
        { id := freshId db, phone := customerPhone, name := customerName,
          email := none, addresses := [] }
      ({ db with customers := db.customers ++ [c], nextId := db.nextId + 1 }, c)
  | some c => (db, c)

/-- `reservation.create`: require an active configuration (`NOT_FOUND`),
the reservations service (`FORBIDDEN`), an open day (`BAD_REQUEST` when the
weekday's schedule is absent or flagged closed), and a requested time
inside `[open, close − 120]` minutes (`BAD_REQUEST` otherwise); then
resolve the customer and persist the reservation with status `PENDING` and
the stored time `HH:MM:00`. -/
def reservationCreate (db : Db) (input : CreateReservationInput) :
    Except ErrCode (Db × Reservation) :=
  match findActiveConfig db with
  | none => .error .NOT_FOUND
  | some config =>
    if !config.services.reservations then .error .FORBIDDEN
    else
      match config.openingHours (dayOfWeek input.reservationDate) with
      | none => .error .BAD_REQUEST
      | some daySchedule =>
        if daySchedule.is_closed then .error .BAD_REQUEST
        else
          if timeToMinutes input.reservationTime <
               timeToMinutes daySchedule.«open» ∨
             (timeToMinutes input.reservationTime : Int) >
               (timeToMinutes daySchedule.close : Int) - 120 then
            .error .BAD_REQUEST
          else
            let rc := resolveCustomerRes db input.customerPhone input.customerName
            let reservation : Reservation :=
              { id := freshId rc.1,
                customerId := rc.2.id,
                customerName := input.customerName,
                customerPhone := input.customerPhone,
                reservationDate := input.reservationDate,
                reservationTime := input.reservationTime ++ ":00",
                partySize := input.partySize,
                status := .PENDING }
            .ok ({ rc.1 with
                     reservations := rc.1.reservations ++ [reservation],
                     nextId := rc.1.nextId + 1 },
                 reservation)

/-- The per-slot lookup of the counting object `reservationCounts` built by
`getAvailableTimes`'s `reduce` (keyed by the first five characters,
`HH:MM`, of the stored time): `reservationCounts[time] || 0`. -/
def reservationCounts (existing : List Reservation) (timeKey : String) : Nat :=
  (existing.filter (fun r => strTake r.reservationTime 5 == timeKey)).length

/-- `reservation.getAvailableTimes`: empty on a missing configuration,
disabled reservations service, or a closed/absent day; otherwise the
30-minute slots from opening to (closing − 120), keeping the slots with
fewer than 3 existing PENDING/CONFIRMED/SEATED reservations on that date.
The `partySize` input is validated but never used by the handler. -/
def getAvailableTimes (db : Db) (date : Nat) (_partySize : Nat) : List String :=
  match findActiveConfig db with
  | none => []
  | some config =>
    if !config.services.reservations then []
    else
      match config.openingHours (dayOfWeek date) with
      | none => []
      | some daySchedule =>
        if daySchedule.is_closed then []
        else
          let slots := genSlots (timeToMinutes daySchedule.«open»)
                         ((timeToMinutes daySchedule.close : Int) - 120)
          let existing := db.reservations.filter (fun r =>
            r.reservationDate == date &&
              (r.status == .PENDING || r.status == .CONFIRMED ||
               r.status == .SEATED))
          slots.filter (fun time => reservationCounts existing time < 3)

def findReservation (db : Db) (id : Nat) : Option Reservation :=
  db.reservations.find? (fun r => r.id == id)

/-- The final `reservation.update({where: {id}, data: {status: CANCELLED}})`
of `reservation.cancel`; the ORM errors when the id matches no row. -/
def cancelUpdate (db : Db) (id : Nat) : Except ErrCode (Db × Reservation) :=
  match findReservation db id with
  | none => .error .DB_ERROR
  | some r =>
    let r' : Reservation := { r with status := .CANCELLED }
    .ok ({ db with reservations :=
             db.reservations.map (fun x => if x.id == id then r' else x) }, r')

/-- `reservation.cancel` (public procedure): when there is no authenticated
user AND a truthy phone was supplied, require the reservation to exist with
exactly that customer phone (`FORBIDDEN` otherwise); in every other case —
any authenticated user, or no phone supplied — go straight to the
cancelling update. -/
def reservationCancel (db : Db) (user : Option CtxUser) (id : Nat)
    (phone : Option String) : Except ErrCode (Db × Reservation) :=
  if user.isNone && strTruthy phone then
    match findReservation db id with
    | none => .error .FORBIDDEN
    | some r =>
      if r.customerPhone != phone.getD "" then .error .FORBIDDEN
      else cancelUpdate db id
  else cancelUpdate db id

/-! ### Authorization middleware -/

/-- The `isAuthed` middleware: `UNAUTHORIZED` when the context carries no
user. -/
def isAuthed (user : Option CtxUser) : Except ErrCode Unit :=
  match user with
  | none => .error .UNAUTHORIZED
  | some _ => .ok ()

/-- The `requireRole(roles)` middleware: `UNAUTHORIZED` when the context
carries no user, `FORBIDDEN` when the user's role is not in `roles`. -/
def requireRole (roles : List String) (user : Option CtxUser) :
    Except ErrCode Unit :=
  match user with
  | none => .error .UNAUTHORIZED
  | some u => if roles.contains u.role then .ok () else .error .FORBIDDEN

/-- A procedure gated by `requireRole`: the handler body runs exactly when
the middleware lets the request through. -/
def gatedProcedure {α : Type} (roles : List String) (user : Option CtxUser)
    (handler : Unit → α) : Except ErrCode α :=
  match requireRole roles user with
  | .error e => .error e
  | .ok _ => .ok (handler ())

/-! ### Spec-side definitions (statements of the claimed properties) -/

/-- The order money invariant claimed by the spec:
`total = subtotal + taxAmount + deliveryFee + tipAmount − discountAmount`. -/
def moneyInvariant (o : OrderRec) : Prop :=
  o.total = o.subtotal + o.taxAmount + o.deliveryFee + o.tipAmount
              - o.discountAmount

/-- Unit price as the spec words it: the menu item's base price plus the
sum of `priceAdjustment` over the requested modifiers whose id exists among
the item's modifiers (a requested id not on the item contributes 0).
Stated independently of the handler's fold, to be compared with it. -/
def specUnitPrice (menuItem : MenuItem) (mods : Option (List RequestedModifier)) : ℚ :=
  menuItem.price +
    ((mods.getD []).map (fun mod =>
      match menuItem.modifiers.find? (fun m => m.id == mod.modifierId) with
      | some modifier => modifier.priceAdjustment
      | none => 0)).sum

/-- The count the claim about `getAvailableTimes` speaks of: existing
NON-CANCELLED reservations on the date whose stored time names the slot
(the stored `TIME` is `HH:MM:SS`; its first five characters are the slot
label). -/
def claimNonCancelledCount (db : Db) (date : Nat) (slot : String) : Nat :=
  (db.reservations.filter (fun r =>
    r.reservationDate == date && r.status != .CANCELLED &&
      strTake r.reservationTime 5 == slot)).length

/-- The count `getAvailableTimes` actually gates on: existing
PENDING/CONFIRMED/SEATED reservations on the date in the slot. -/
def activeSlotCount (db : Db) (date : Nat) (slot : String) : Nat :=
  reservationCounts
    (db.reservations.filter (fun r =>
      r.reservationDate == date &&
        (r.status == .PENDING || r.status == .CONFIRMED ||
         r.status == .SEATED)))
    slot

/-- Customer-table well-formedness: ids are below the fresh-id counter and
pairwise distinct, and — the claimed invariant — phones are pairwise
distinct. -/
def customersOk (db : Db) : Prop :=
  (∀ c ∈ db.customers, c.id < db.nextId) ∧
  db.customers.Pairwise (fun a b => a.id ≠ b.id) ∧
  db.customers.Pairwise (fun a b => a.phone ≠ b.phone)

/-- One element of an interleaved sequence of `order.create` and
`reservation.create` calls. -/
inductive CreateReq where
  | order (input : CreateOrderInput)
  | reservation (input : CreateReservationInput)

/-- Run one create call against the store, keeping the old store when the
call fails (a failing call writes nothing). -/
def applyCreate (db : Db) : CreateReq → Db
  | .order input =>
    match orderCreate db input with
    | .ok (db', _) => db'
    | .error _ => db
  | .reservation input =>
    match reservationCreate db input with
    | .ok (db', _) => db'
    | .error _ => db

/-! ### Concrete fixtures used by witnesses and counterexamples -/

def exMod : ItemModifier :=
  { id := 11, name := "Queso extra", priceAdjustment := 10 }

def exItem : MenuItem :=
  { id := 1, price := 85, isAvailable := true, modifiers := [exMod] }

def exDC : DeliveryConfig :=
  { fee := some 30, minimum_order := some 100, is_free_over_amount := some 300 }

def exOpenDay : DaySchedule :=
  { «open» := "09:00", close := "22:00", is_closed := false }

def exClosedDay : DaySchedule :=
  { «open» := "09:00", close := "22:00", is_closed := true }

def exHours : String → Option DaySchedule := fun d =>
  if d == "monday" then some exOpenDay
  else if d == "tuesday" then some exClosedDay
  else none

def exConfig : RestaurantConfig :=
  { isActive := true, services := { reservations := true },
    openingHours := exHours, deliveryConfig := some exDC }

def exDb : Db :=
  { menuItems := [exItem], configs := [exConfig], customers := [],
    orders := [], reservations := [], nextId := 20 }

def exDbNoConfig : Db :=
  { exDb with configs := [] }

def exCustomerInfo : CustomerInfo :=
  { name := "Ana García", phone := "5512345678", email := none }

def exTakeoutInput : CreateOrderInput :=
  { orderType := .TAKEOUT,
    items := [{ menuItemId := 1, quantity := 2, specialInstructions := none,
                modifiers := none }],
    customerInfo := exCustomerInfo, deliveryAddress := none,
    tableNumber := none, specialInstructions := none, paymentMethod := .cash }

def exDeliverySmallInput : CreateOrderInput :=
  { exTakeoutInput with
    orderType := .DELIVERY,
    items := [{ menuItemId := 1, quantity := 1, specialInstructions := none,
                modifiers := none }] }

def exDeliveryInput : CreateOrderInput :=
  { exTakeoutInput with orderType := .DELIVERY }

def exResInput (time : String) : CreateReservationInput :=
  { customerName := "Luis Pérez", customerPhone := "5587654321",
    reservationDate := 1, reservationTime := time, partySize := 4 }

def exResInputClosed : CreateReservationInput :=
  { exResInput "12:00" with reservationDate := 2 }

def exReservation (id : Nat) (status : ReservationStatus) : Reservation :=
  { id := id, customerId := 7, customerName := "Luis Pérez",
    customerPhone := "5587654321", reservationDate := 1,
    reservationTime := "09:00:00", partySize := 2, status := status }

def exDbNoShow : Db :=
  { exDb with
    reservations := [exReservation 31 .NO_SHOW, exReservation 32 .NO_SHOW,
                     exReservation 33 .NO_SHOW] }

def exDbCancel : Db :=
  { exDb with reservations := [exReservation 5 .PENDING] }

/-! ### Claims -/

/-- C6: a procedure gated by `requireRole(allowedRoles)` fails with
`UNAUTHORIZED` before the handler runs when the context carries no user,
fails with `FORBIDDEN` before the handler runs when the user's role is not
among `allowedRoles`, and otherwise runs the handler. -/
theorem requireRole_gates {α : Type} (roles : List String)
    (user : Option CtxUser) (handler : Unit → α) :
    (user = none → gatedProcedure roles user handler = .error .UNAUTHORIZED) ∧
    (∀ u, user = some u → u.role ∉ roles →
       gatedProcedure roles user handler = .error .FORBIDDEN) ∧
    (∀ u, user = some u → u.role ∈ roles →
       gatedProcedure roles user handler = .ok (handler ())) := by
  refine ⟨fun h => ?_, fun u hu hrole => ?_, fun u hu hrole => ?_⟩ <;> subst_vars
  · simp [gatedProcedure, requireRole]
  · simp [gatedProcedure, requireRole, hrole]
  · simp [gatedProcedure, requireRole, hrole]

/-- C6 witness: `requireRole(['ADMIN'])` rejects a KITCHEN user with
`FORBIDDEN`, rejects an anonymous context with `UNAUTHORIZED`, and lets an
ADMIN user's handler run. -/
theorem requireRole_gates_witness :
    gatedProcedure ["ADMIN"] (some ⟨"u2", "kitchen@ordo.mx", "KITCHEN"⟩)
        (fun _ => (0 : Nat)) = .error .FORBIDDEN ∧
    gatedProcedure ["ADMIN"] (none : Option CtxUser)
        (fun _ => (0 : Nat)) = .error .UNAUTHORIZED ∧
    gatedProcedure ["ADMIN"] (some ⟨"u1", "admin@ordo.mx", "ADMIN"⟩)
        (fun _ => (0 : Nat)) = .ok 0 :=
  ⟨(requireRole_gates _ _ _).2.1 _ rfl (by decide),
   (requireRole_gates _ _ _).1 rfl,
   (requireRole_gates _ _ _).2.2 _ rfl (by decide)⟩

/-- C3: a DELIVERY `order.create` whose computed subtotal is under the
active configuration's `minimum_order` fails with `PRECONDITION_FAILED`;
the check precedes every write of the handler, and an erring run returns no
store, so nothing is persisted. -/
theorem orderCreate_delivery_minimum (db : Db) (input : CreateOrderInput)
    (cfg : RestaurantConfig) (dc : DeliveryConfig) (m s : ℚ)
    (ps : List ProcessedItem)
    (hty : input.orderType = .DELIVERY)
    (hcfg : findActiveConfig db = some cfg)
    (hdc : cfg.deliveryConfig = some dc)
    (hmin : dc.minimum_order = some m)
    (hitems : processItems db input.items = .ok (s, ps))
    (hlt : s < m) :
    orderCreate db input = .error .PRECONDITION_FAILED := by
  have hfee : computeDeliveryFee db input.orderType s = .error .PRECONDITION_FAILED := by
    simp [computeDeliveryFee, hty, hcfg, hdc, hmin, hlt]
  simp [orderCreate, hitems, hfee]

/-- C3 witness: one item at price 85, delivery minimum 100 — the concrete
call fails with `PRECONDITION_FAILED`. -/
theorem orderCreate_delivery_minimum_witness :
    orderCreate exDb exDeliverySmallInput = .error .PRECONDITION_FAILED := by
  have hitems : processItems exDb exDeliverySmallInput.items =
      .ok (85, [{ menuItemId := 1, quantity := 1, unitPrice := 85,
                  totalPrice := 85, specialInstructions := none,
                  modifiers := none }]) := by
    norm_num [processItems, applyModifiers, exDb, exItem, exDeliverySmallInput,
      exTakeoutInput]
  exact orderCreate_delivery_minimum exDb exDeliverySmallInput exConfig exDC
    100 85 _ rfl rfl rfl rfl hitems (by norm_num)

/-- C10: a DELIVERY `order.create` against a store with no active
configuration, or whose active configuration has no `deliveryConfig`,
skips the minimum-order check and succeeds with `deliveryFee = 0`. -/
theorem orderCreate_delivery_noConfig (db : Db) (input : CreateOrderInput)
    (s : ℚ) (ps : List ProcessedItem)
    (hty : input.orderType = .DELIVERY)
    (hitems : processItems db input.items = .ok (s, ps))
    (hcfg : findActiveConfig db = none ∨
            ∃ cfg, findActiveConfig db = some cfg ∧ cfg.deliveryConfig = none) :
    ∃ db' o, orderCreate db input = .ok (db', o) ∧ o.deliveryFee = 0 := by
  have hfee : computeDeliveryFee db input.orderType s = .ok 0 := by
    rcases hcfg with h | ⟨cfg, h1, h2⟩
    · simp [computeDeliveryFee, hty, h]
    · simp [computeDeliveryFee, hty, h1, h2]
  simp only [orderCreate, hitems, hfee]
  exact ⟨_, _, rfl, rfl⟩

/-- C10 witness: the concrete DELIVERY order against a store without any
restaurant configuration is created with a zero delivery fee. -/
theorem orderCreate_delivery_noConfig_witness :
    ∃ db' o, orderCreate exDbNoConfig exDeliveryInput = .ok (db', o) ∧
      o.deliveryFee = 0 := by
  have hitems : processItems exDbNoConfig exDeliveryInput.items =
      .ok (170, [{ menuItemId := 1, quantity := 2, unitPrice := 85,
                   totalPrice := 170, specialInstructions := none,
                   modifiers := none }]) := by
    norm_num [processItems, applyModifiers, exDbNoConfig, exDb, exItem,
      exDeliveryInput, exTakeoutInput]
  exact orderCreate_delivery_noConfig exDbNoConfig exDeliveryInput 170 _
    rfl hitems (Or.inl rfl)

/-- C9: a `reservation.create` whose date falls on a weekday flagged
`is_closed` fails with `BAD_REQUEST` (given the active configuration with
the reservations service on, which the handler checks first); the check
precedes every write, and an erring run returns no store, so neither a
Customer nor a Reservation row is persisted. -/
theorem reservationCreate_closedDay (db : Db) (input : CreateReservationInput)
    (cfg : RestaurantConfig) (ds : DaySchedule)
    (hcfg : findActiveConfig db = some cfg)
    (hsvc : cfg.services.reservations = true)
    (hds : cfg.openingHours (dayOfWeek input.reservationDate) = some ds)
    (hclosed : ds.is_closed = true) :
    reservationCreate db input = .error .BAD_REQUEST := by
  unfold reservationCreate
  rw [hcfg]
  simp [hsvc, hds, hclosed]

/-- C9 witness: the concrete request on the closed Tuesday fails with
`BAD_REQUEST`. -/
theorem reservationCreate_closedDay_witness :
    reservationCreate exDb exResInputClosed = .error .BAD_REQUEST :=
  reservationCreate_closedDay exDb exResInputClosed exConfig exClosedDay
    rfl rfl rfl rfl

/-- C8: past the configuration and open-day checks, `reservation.create`
fails with `BAD_REQUEST` exactly when the requested time, in minutes since
midnight, is before opening or after closing minus 120 minutes. -/
theorem reservationCreate_time_window (db : Db) (input : CreateReservationInput)
    (cfg : RestaurantConfig) (ds : DaySchedule)
    (hcfg : findActiveConfig db = some cfg)
    (hsvc : cfg.services.reservations = true)
    (hds : cfg.openingHours (dayOfWeek input.reservationDate) = some ds)
    (hday : ds.is_closed = false) :
    reservationCreate db input = .error .BAD_REQUEST ↔
      (timeToMinutes input.reservationTime < timeToMinutes ds.«open» ∨
       (timeToMinutes input.reservationTime : Int) >
         (timeToMinutes ds.close : Int) - 120) := by
  unfold reservationCreate
  rw [hcfg]
  simp only [hsvc, hds, hday, Bool.not_true, Bool.false_eq_true, if_false,
    Bool.not_false]
  split_ifs with h
  · simp [h]
  · simp [h]

/-- C8 witness: with hours 09:00–22:00, the request at 20:30 is rejected
with `BAD_REQUEST`, and the request at 19:30 passes the window check and
the reservation is created. -/
theorem reservationCreate_time_window_witness :
    reservationCreate exDb (exResInput "20:30") = .error .BAD_REQUEST ∧
    reservationCreate exDb (exResInput "19:30") ≠ .error .BAD_REQUEST ∧
    ∃ r, reservationCreate exDb (exResInput "19:30") = .ok r := by
  have h1 := reservationCreate_time_window exDb (exResInput "20:30")
    exConfig exOpenDay rfl rfl rfl rfl
  have h2 := reservationCreate_time_window exDb (exResInput "19:30")
    exConfig exOpenDay rfl rfl rfl rfl
  refine ⟨h1.mpr ?_, fun hc => absurd (h2.mp hc) ?_, ⟨_, rfl⟩⟩
  · right
    decide
  · decide

/-- C5 counterexample: the claim says an unauthenticated `cancel` succeeds
only with a matching phone; but the handler checks ownership only when a
phone is supplied (`if (!ctx.user && phone)`), so the concrete
unauthenticated call that supplies NO phone cancels the reservation
outright. -/
theorem reservationCancel_noPhone_cex :
    (reservationCancel exDbCancel none 5 none).map (fun r => r.2.status) =
      .ok .CANCELLED := rfl

/-- C5 as amended: without an authenticated user the ownership check runs
only when a truthy (non-empty) phone is supplied — a mismatching or
unresolvable reservation then fails with `FORBIDDEN` and the store is
unchanged, a match proceeds; with no phone, an empty phone, or any
authenticated staff identity the handler cancels unconditionally; the
cancelling update itself sets status `CANCELLED` and errors only when the
id matches no reservation. -/
theorem reservationCancel_characterization (db : Db) (user : Option CtxUser)
    (id : Nat) (phone : Option String) :
    (∀ u, user = some u →
       reservationCancel db user id phone = cancelUpdate db id) ∧
    (strTruthy phone = false →
       reservationCancel db user id phone = cancelUpdate db id) ∧
    (user = none → strTruthy phone = true →
       ∀ r, findReservation db id = some r →
         r.customerPhone = phone.getD "" →
         reservationCancel db user id phone = cancelUpdate db id) ∧
    (user = none → strTruthy phone = true → findReservation db id = none →
       reservationCancel db user id phone = .error .FORBIDDEN) ∧
    (user = none → strTruthy phone = true →
       ∀ r, findReservation db id = some r →
         r.customerPhone ≠ phone.getD "" →
         reservationCancel db user id phone = .error .FORBIDDEN) ∧
    (findReservation db id = none → cancelUpdate db id = .error .DB_ERROR) ∧
    (∀ r, findReservation db id = some r →
       cancelUpdate db id =
         .ok ({ db with
                  reservations := db.reservations.map (fun x =>
                    if x.id == id then { r with status := .CANCELLED } else x) },
              { r with status := .CANCELLED })) := by
  refine ⟨fun u hu => ?_, fun hph => ?_, fun hu hph r hr hmatch => ?_,
    fun hu hph hr => ?_, fun hu hph r hr hmismatch => ?_, fun hr => ?_,
    fun r hr => ?_⟩
  · simp [reservationCancel, hu]
  · simp [reservationCancel, hph]
  · simp [reservationCancel, hu, hph, hr, hmatch]
  · simp [reservationCancel, hu, hph, hr]
  · simp [reservationCancel, hu, hph, hr, hmismatch]
  · simp [cancelUpdate, hr]
  · simp [cancelUpdate, hr]

/-- C5 witness: on the concrete store, an unauthenticated cancel with a
wrong phone fails with `FORBIDDEN`, while a staff identity cancels
unconditionally and the row ends `CANCELLED`. -/
theorem reservationCancel_characterization_witness :
    reservationCancel exDbCancel none 5 (some "0000000000") =
      .error .FORBIDDEN ∧
    reservationCancel exDbCancel (some ⟨"u3", "waiter@ordo.mx", "WAITER"⟩) 5
      (some "0000000000") = cancelUpdate exDbCancel 5 ∧
    cancelUpdate exDbCancel 5 =
      .ok ({ exDbCancel with
               reservations := exDbCancel.reservations.map (fun x =>
                 if x.id == 5
                 then { exReservation 5 .PENDING with status := .CANCELLED }
                 else x) },
           { exReservation 5 .PENDING with status := .CANCELLED }) :=
  ⟨(reservationCancel_characterization exDbCancel none 5
      (some "0000000000")).2.2.2.2.1 rfl rfl (exReservation 5 .PENDING) rfl
      (by decide),
   (reservationCancel_characterization exDbCancel
      (some ⟨"u3", "waiter@ordo.mx", "WAITER"⟩) 5 (some "0000000000")).1 _ rfl,
   (reservationCancel_characterization exDbCancel none 5
      (some "0000000000")).2.2.2.2.2.2 (exReservation 5 .PENDING) rfl⟩

/-- C4 counterexample: with three NO_SHOW reservations stored at 09:00 —
non-cancelled, hence the claimed count is 3 — `getAvailableTimes` still
returns the 09:00 slot, because the handler counts only
PENDING/CONFIRMED/SEATED rows. -/
theorem getAvailableTimes_nonCancelled_cex :
    "09:00" ∈ getAvailableTimes exDbNoShow 1 2 ∧
    3 ≤ claimNonCancelledCount exDbNoShow 1 "09:00" := by decide

/-- C4 as amended: `getAvailableTimes` never returns a slot whose count of
existing PENDING/CONFIRMED/SEATED reservations on that date (stored time
naming the slot) is 3 or more. -/
theorem getAvailableTimes_activeCount (db : Db) (date partySize : Nat)
    (t : String) (h : t ∈ getAvailableTimes db date partySize) :
    activeSlotCount db date t < 3 := by
  unfold getAvailableTimes at h
  rcases hc : findActiveConfig db with _ | cfg
  · simp [hc] at h
  · simp only [hc] at h
    by_cases hsvc : cfg.services.reservations
    · rw [if_neg (by simp [hsvc])] at h
      rcases hd : cfg.openingHours (dayOfWeek date) with _ | ds
      · simp [hd] at h
      · simp only [hd] at h
        by_cases hcl : ds.is_closed
        · rw [if_pos (by simp [hcl])] at h
          simp at h
        · rw [if_neg (by simp [hcl])] at h
          exact of_decide_eq_true (List.mem_filter.mp h).2
    · rw [if_pos (by simp [hsvc])] at h
      simp at h

/-- C4 witness for the amended claim: the returned 09:00 slot indeed has
fewer than 3 active reservations on the concrete store. -/
theorem getAvailableTimes_activeCount_witness :
    activeSlotCount exDbNoShow 1 "09:00" < 3 :=
  getAvailableTimes_activeCount exDbNoShow 1 2 "09:00" (by decide)

/-! ### Elimination lemmas for the order mutations -/

lemma orderCreate_ok_elim (db : Db) (input : CreateOrderInput) (db' : Db)
    (o : OrderRec) (h : orderCreate db input = .ok (db', o)) :
    ∃ s ps fee,
      processItems db input.items = .ok (s, ps) ∧
      computeDeliveryFee db input.orderType s = .ok fee ∧
      o.subtotal = s ∧
      o.taxAmount = s * (16/100) ∧
      o.deliveryFee = fee ∧
      o.tipAmount = 0 ∧
      o.discountAmount = 0 ∧
      o.total = s + s * (16/100) + fee + 0 - 0 ∧
      o.orderItems = ps ∧
      db'.customers =
        (resolveCustomerOrder db input.customerInfo input.deliveryAddress).1.customers ∧
      db'.nextId =
        (resolveCustomerOrder db input.customerInfo input.deliveryAddress).1.nextId + 1 ∧
      db'.orders =
        (resolveCustomerOrder db input.customerInfo input.deliveryAddress).1.orders
          ++ [o] := by
  unfold orderCreate at h
  split at h
  · simp at h
  · rename_i s ps hp
    split at h
    · simp at h
    · rename_i fee hf
      simp only [Except.ok.injEq, Prod.mk.injEq] at h
      obtain ⟨hdb, ho⟩ := h
      subst hdb
      subst ho
      exact ⟨s, ps, fee, hp, hf, rfl, rfl, rfl, rfl, rfl, rfl, rfl, rfl, rfl,
        rfl⟩

lemma mem_updateOrderRow (db : Db) (id : Nat) (o o' : OrderRec)
    (h : findOrder db id = some o) :
    o' ∈ (updateOrderRow db id (fun _ => o')).orders := by
  have h' : List.find? (fun x => x.id == id) db.orders = some o := h
  have hmem := List.mem_of_find?_eq_some h'
  have hp := List.find?_some h'
  simp only [] at hp
  unfold updateOrderRow
  refine List.mem_map.mpr ⟨o, hmem, ?_⟩
  simp [hp]

lemma updateStatus_ok_elim (db : Db) (id : Nat) (status : OrderStatus)
    (ert : Option Nat) (now : Nat) (db' : Db) (o' : OrderRec)
    (h : updateStatus db id status ert now = .ok (db', o')) :
    ∃ o, findOrder db id = some o ∧
      db' = updateOrderRow db id (fun _ => o') ∧
      o'.subtotal = o.subtotal ∧ o'.taxAmount = o.taxAmount ∧
      o'.deliveryFee = o.deliveryFee ∧ o'.tipAmount = o.tipAmount ∧
      o'.discountAmount = o.discountAmount ∧ o'.total = o.total := by
  unfold updateStatus at h
  split at h
  · simp at h
  · rename_i o ho
    simp only [Except.ok.injEq, Prod.mk.injEq] at h
    obtain ⟨hdb, ho'⟩ := h
    subst ho'
    subst hdb
    exact ⟨o, ho, rfl, rfl, rfl, rfl, rfl, rfl, rfl⟩

lemma confirmPayment_ok_elim (db : Db) (id : Nat) (ref : Option String)
    (tip : Option ℚ) (db' : Db) (o' : OrderRec)
    (h : confirmPayment db id ref tip = .ok (db', o')) :
    ∃ o, findOrder db id = some o ∧
      db' = updateOrderRow db id (fun _ => o') ∧
      (∀ t, tip = some t → t ≠ 0 → 0 < t →
         o' = { o with
                  paymentStatus := "PAID",
                  paymentReference := if strTruthy ref then ref
                                      else o.paymentReference,
                  tipAmount := t,
                  total := o.subtotal + o.taxAmount + o.deliveryFee + t
                             - o.discountAmount }) ∧
      ((∀ t, tip = some t → ¬(t ≠ 0 ∧ 0 < t)) →
         o' = { o with
                  paymentStatus := "PAID",
                  paymentReference := if strTruthy ref then ref
                                      else o.paymentReference }) := by
  unfold confirmPayment at h
  split at h
  · simp at h
  · rename_i o ho
    simp only [Except.ok.injEq, Prod.mk.injEq] at h
    obtain ⟨hdb, ho'⟩ := h
    subst ho'
    subst hdb
    rcases tip with _ | t
    · refine ⟨o, ho, rfl, ?_, fun _ => rfl⟩
      intro t ht hne hpos
      cases ht
    · refine ⟨o, ho, rfl, fun t' ht' hne hpos => ?_, fun hnone => ?_⟩
      · cases ht'
        show (if t ≠ 0 ∧ 0 < t then _ else _) = _
        rw [if_pos ⟨hne, hpos⟩]
      · have hc := hnone t rfl
        show (if t ≠ 0 ∧ 0 < t then _ else _) = _
        rw [if_neg hc]

/-- C1: the money invariant
`total = subtotal + taxAmount + deliveryFee + tipAmount − discountAmount`
holds on every order persisted by `order.create` (with tip and discount 0),
is preserved by every successful `order.updateStatus` (which never touches
the money fields), and holds after every successful `order.confirmPayment`
— a positive tip recomputes the total from the stored components plus the
tip (no client-supplied total exists in the input), and a missing or
non-positive tip leaves every money field unchanged. -/
theorem order_money_invariant :
    (∀ db input db' o, orderCreate db input = .ok (db', o) →
       o.tipAmount = 0 ∧ o.discountAmount = 0 ∧ moneyInvariant o ∧
         o ∈ db'.orders) ∧
    (∀ db id status ert now db' o',
       updateStatus db id status ert now = .ok (db', o') →
       ∃ o, findOrder db id = some o ∧
         o'.subtotal = o.subtotal ∧ o'.taxAmount = o.taxAmount ∧
         o'.deliveryFee = o.deliveryFee ∧ o'.tipAmount = o.tipAmount ∧
         o'.discountAmount = o.discountAmount ∧ o'.total = o.total ∧
         (moneyInvariant o → moneyInvariant o') ∧ o' ∈ db'.orders) ∧
    (∀ db id ref tip db' o', confirmPayment db id ref tip = .ok (db', o') →
       ∃ o, findOrder db id = some o ∧ o' ∈ db'.orders ∧
         (∀ t, tip = some t → 0 < t →
            o'.tipAmount = t ∧ o'.subtotal = o.subtotal ∧
            o'.taxAmount = o.taxAmount ∧ o'.deliveryFee = o.deliveryFee ∧
            o'.discountAmount = o.discountAmount ∧
            o'.total = o.subtotal + o.taxAmount + o.deliveryFee + t
                         - o.discountAmount ∧
            moneyInvariant o') ∧
         ((tip = none ∨ ∃ t, tip = some t ∧ ¬ 0 < t) →
            o'.subtotal = o.subtotal ∧ o'.taxAmount = o.taxAmount ∧
            o'.deliveryFee = o.deliveryFee ∧ o'.tipAmount = o.tipAmount ∧
            o'.discountAmount = o.discountAmount ∧ o'.total = o.total ∧
            (moneyInvariant o → moneyInvariant o'))) := by
  refine ⟨fun db input db' o h => ?_, fun db id status ert now db' o' h => ?_,
    fun db id ref tip db' o' h => ?_⟩
  · obtain ⟨s, ps, fee, _, _, hsub, htax, hfee, htip, hdisc, htot, _, _, _,
      horders⟩ := orderCreate_ok_elim db input db' o h
    refine ⟨htip, hdisc, ?_, ?_⟩
    · unfold moneyInvariant
      rw [hsub, htax, hfee, htip, hdisc, htot]
    · rw [horders]
      simp
  · obtain ⟨o, ho, hdb, h1, h2, h3, h4, h5, h6⟩ :=
      updateStatus_ok_elim db id status ert now db' o' h
    refine ⟨o, ho, h1, h2, h3, h4, h5, h6, fun hi => ?_, ?_⟩
    · unfold moneyInvariant at hi ⊢
      rw [h1, h2, h3, h4, h5, h6]
      exact hi
    · rw [hdb]
      exact mem_updateOrderRow db id o o' ho
  · obtain ⟨o, ho, hdb, hpos, hneg⟩ :=
      confirmPayment_ok_elim db id ref tip db' o' h
    refine ⟨o, ho, ?_, fun t ht htpos => ?_, fun hn => ?_⟩
    · rw [hdb]
      exact mem_updateOrderRow db id o o' ho
    · have ho' := hpos t ht (by positivity) htpos
      subst ho'
      exact ⟨rfl, rfl, rfl, rfl, rfl, rfl, by unfold moneyInvariant; rfl⟩
    · have hnone : ∀ t, tip = some t → ¬(t ≠ 0 ∧ 0 < t) := by
        rcases hn with hn | ⟨t, ht, htle⟩
        · intro t ht
          rw [hn] at ht
          cases ht
        · intro t' ht'
          rw [ht] at ht'
          cases ht'
          exact fun hc => htle hc.2
      have ho' := hneg hnone
      subst ho'
      exact ⟨rfl, rfl, rfl, rfl, rfl, rfl, fun hi => hi⟩

def exOrder : OrderRec :=
  { id := 40, orderNumber := "ORD-40", customerId := 21, orderType := .TAKEOUT,
    status := .PENDING, subtotal := 170, taxAmount := 136/5, deliveryFee := 0,
    tipAmount := 0, discountAmount := 0, total := 986/5,
    customerName := "Ana García", customerPhone := "5512345678",
    paymentStatus := "PENDING", paymentReference := none,
    paymentMethod := .cash, orderItems := [], readyAt := none,
    deliveredAt := none, estimatedReadyTime := none }

def exDbOrders : Db :=
  { exDb with orders := [exOrder] }

/-- C1 witness: the concrete TAKEOUT creation satisfies the invariant with
tip and discount 0, and the concrete payment confirmation with tip 20
recomputes a total satisfying the invariant. -/
theorem order_money_invariant_witness :
    (∃ db' o, orderCreate exDb exTakeoutInput = .ok (db', o) ∧
       o.tipAmount = 0 ∧ o.discountAmount = 0 ∧ moneyInvariant o) ∧
    (∃ db' o', confirmPayment exDbOrders 40 none (some 20) = .ok (db', o') ∧
       o'.tipAmount = 20 ∧ moneyInvariant o') := by
  constructor
  · obtain ⟨db', o, hok⟩ :
        ∃ db' o, orderCreate exDb exTakeoutInput = .ok (db', o) := ⟨_, _, rfl⟩
    have h := (order_money_invariant).1 exDb exTakeoutInput db' o hok
    exact ⟨db', o, hok, h.1, h.2.1, h.2.2.1⟩
  · obtain ⟨db', o', hok⟩ :
        ∃ db' o', confirmPayment exDbOrders 40 none (some 20) = .ok (db', o') :=
      ⟨_, _, rfl⟩
    obtain ⟨o, _, _, hpos, _⟩ :=
      (order_money_invariant).2.2 exDbOrders 40 none (some 20) db' o' hok
    have h := hpos 20 rfl (by norm_num)
    exact ⟨db', o', hok, h.1, h.2.2.2.2.2.2⟩

/-! ### Pricing lemmas for `order.create` -/

lemma applyModStep_fold_price (mi : MenuItem) (ms : List RequestedModifier) :
    ∀ acc : ℚ × List AppliedModifier,
      (ms.foldl (applyModStep mi) acc).1 =
        acc.1 + (ms.map (fun mod =>
          match mi.modifiers.find? (fun m => m.id == mod.modifierId) with
          | some modifier => modifier.priceAdjustment
          | none => 0)).sum := by
  induction ms with
  | nil =>
    intro acc
    simp
  | cons mod rest ih =>
    intro acc
    simp only [List.foldl_cons, List.map_cons, List.sum_cons]
    rw [ih]
    unfold applyModStep
    rcases hf : mi.modifiers.find? (fun m => m.id == mod.modifierId) with _ | modifier
    · simp only [hf]
      ring
    · simp only [hf]
      ring

lemma applyModifiers_price (mi : MenuItem) (mods : Option (List RequestedModifier)) :
    (applyModifiers mi mods).1 = specUnitPrice mi mods := by
  rcases mods with _ | ms
  · simp [applyModifiers, specUnitPrice]
  · simp only [applyModifiers, specUnitPrice, Option.getD_some]
    rw [applyModStep_fold_price]

lemma processItems_ok_spec (db : Db) (items : List OrderItemRequest) :
    ∀ (s : ℚ) (ps : List ProcessedItem),
      processItems db items = .ok (s, ps) →
      ps.length = items.length ∧
      s = (ps.map (fun p => p.totalPrice)).sum ∧
      ∀ i (hi : i < items.length) (hp : i < ps.length),
        ∃ mi, db.menuItems.find?
            (fun m => m.id == (items.get ⟨i, hi⟩).menuItemId) = some mi ∧
          mi.isAvailable = true ∧
          (ps.get ⟨i, hp⟩).menuItemId = (items.get ⟨i, hi⟩).menuItemId ∧
          (ps.get ⟨i, hp⟩).quantity = (items.get ⟨i, hi⟩).quantity ∧
          (ps.get ⟨i, hp⟩).unitPrice =
            specUnitPrice mi (items.get ⟨i, hi⟩).modifiers ∧
          (ps.get ⟨i, hp⟩).totalPrice =
            (ps.get ⟨i, hp⟩).unitPrice * ((items.get ⟨i, hi⟩).quantity : ℚ) := by
  induction items with
  | nil =>
    intro s ps h
    unfold processItems at h
    simp only [Except.ok.injEq, Prod.mk.injEq] at h
    obtain ⟨hs, hps⟩ := h
    subst hs
    subst hps
    exact ⟨rfl, by simp, fun i hi => absurd hi (Nat.not_lt_zero i)⟩
  | cons item rest ih =>
    intro s ps h
    unfold processItems at h
    split at h
    · simp at h
    · rename_i mi hfind
      split at h
      · simp at h
      · rename_i havail
        split at h
        · simp at h
        · rename_i s0 ps0 hrest
          simp only [Except.ok.injEq, Prod.mk.injEq] at h
          obtain ⟨hs, hps⟩ := h
          obtain ⟨hlen, hsum, hidx⟩ := ih s0 ps0 hrest
          subst hs
          subst hps
          refine ⟨by simp [hlen], ?_, ?_⟩
          · simp only [List.map_cons, List.sum_cons]
            rw [← hsum]
          · intro i hi hp
            cases i with
            | zero =>
              refine ⟨mi, hfind, ?_, rfl, rfl, ?_, rfl⟩
              · simpa using havail
              · exact applyModifiers_price mi item.modifiers
            | succ n =>
              exact hidx n (Nat.lt_of_succ_lt_succ hi)
                (Nat.lt_of_succ_lt_succ hp)

/-- C2: on every successful `order.create`, each stored line item's unit
price is the resolved menu item's base price plus the sum of
`priceAdjustment` over exactly the requested modifiers whose id exists
among that item's modifiers (`specUnitPrice`; a requested id not on the
item contributes nothing and raises no error), the line total is the unit
price times the quantity, and the stored subtotal is the sum of the line
totals. -/
theorem orderCreate_pricing (db : Db) (input : CreateOrderInput) (db' : Db)
    (o : OrderRec) (h : orderCreate db input = .ok (db', o)) :
    o.orderItems.length = input.items.length ∧
    o.subtotal = (o.orderItems.map (fun p => p.totalPrice)).sum ∧
    ∀ i (hi : i < input.items.length) (hp : i < o.orderItems.length),
      ∃ mi, db.menuItems.find?
          (fun m => m.id == (input.items.get ⟨i, hi⟩).menuItemId) = some mi ∧
        mi.isAvailable = true ∧
        (o.orderItems.get ⟨i, hp⟩).menuItemId =
          (input.items.get ⟨i, hi⟩).menuItemId ∧
        (o.orderItems.get ⟨i, hp⟩).quantity =
          (input.items.get ⟨i, hi⟩).quantity ∧
        (o.orderItems.get ⟨i, hp⟩).unitPrice =
          specUnitPrice mi (input.items.get ⟨i, hi⟩).modifiers ∧
        (o.orderItems.get ⟨i, hp⟩).totalPrice =
          (o.orderItems.get ⟨i, hp⟩).unitPrice *
            ((input.items.get ⟨i, hi⟩).quantity : ℚ) := by
  obtain ⟨s, ps, fee, hproc, _, hsub, _, _, _, _, _, hitems, _, _, _⟩ :=
    orderCreate_ok_elim db input db' o h
  obtain ⟨hlen, hsum, hidx⟩ := processItems_ok_spec db input.items s ps hproc
  rw [hsub, hitems]
  exact ⟨hlen, hsum, hidx⟩

def exModInput : CreateOrderInput :=
  { exTakeoutInput with
    items := [{ menuItemId := 1, quantity := 2, specialInstructions := none,
                modifiers := some [{ modifierId := 11, selectedOptions := none },
                                   { modifierId := 99, selectedOptions := none }] }] }

/-- C2 witness: ordering two units of the 85-peso item with its 10-peso
modifier plus a bogus modifier id 99 — the bogus id is silently dropped,
the unit price is 95, and the subtotal is the sum of the line totals. -/
theorem orderCreate_pricing_witness :
    ∃ db' o, orderCreate exDb exModInput = .ok (db', o) ∧
      o.orderItems.length = 1 ∧
      o.subtotal = (o.orderItems.map (fun p => p.totalPrice)).sum ∧
      ∃ hp : 0 < o.orderItems.length,
        (o.orderItems.get ⟨0, hp⟩).unitPrice = 95 := by
  obtain ⟨db', o, hok⟩ : ∃ db' o, orderCreate exDb exModInput = .ok (db', o) :=
    ⟨_, _, rfl⟩
  obtain ⟨hlen, hsum, hidx⟩ := orderCreate_pricing exDb exModInput db' o hok
  have h1 : o.orderItems.length = 1 := by
    rw [hlen]
    rfl
  have hp0 : 0 < o.orderItems.length := by omega
  obtain ⟨mi, hfind, _, _, _, hunit, _⟩ := hidx 0 (by decide) hp0
  have hmi : mi = exItem := by
    have h2 : some mi = some exItem := hfind.symm.trans rfl
    exact Option.some_inj.mp h2
  subst hmi
  refine ⟨db', o, hok, h1, hsum, hp0, ?_⟩
  rw [hunit]
  norm_num [specUnitPrice, exItem, exMod, exModInput, exTakeoutInput]

/-! ### Customer-table lemmas -/

lemma eq_of_pairwise_key {β : Type} (f : Customer → β) :
    ∀ {l : List Customer}, l.Pairwise (fun a b => f a ≠ f b) →
      ∀ {x y}, x ∈ l → y ∈ l → f x = f y → x = y := by
  intro l
  induction l with
  | nil =>
    intro _ x y hx
    cases hx
  | cons a l ih =>
    intro hp x y hx hy hxy
    obtain ⟨hhead, htail⟩ := List.pairwise_cons.mp hp
    rcases List.mem_cons.mp hx with rfl | hx'
    · rcases List.mem_cons.mp hy with rfl | hy'
      · rfl
      · exact absurd hxy (hhead y hy')
    · rcases List.mem_cons.mp hy with rfl | hy'
      · exact absurd hxy.symm (hhead x hx')
      · exact ih htail hx' hy' hxy

lemma customersOk_replace (db : Db) (c c' : Customer) (hok : customersOk db)
    (hcm : c ∈ db.customers) (hid : c'.id = c.id) (hph : c'.phone = c.phone) :
    customersOk { db with
                    customers := db.customers.map (fun x =>
                      if x.id == c.id then c' else x) } := by
  obtain ⟨hlt, hids, hphs⟩ := hok
  have hg : ∀ x ∈ db.customers,
      (if x.id == c.id then c' else x).id = x.id ∧
      (if x.id == c.id then c' else x).phone = x.phone := by
    intro x hx
    by_cases hxe : x.id = c.id
    · have hxc : x = c := eq_of_pairwise_key (fun y => y.id) hids hx hcm hxe
      subst hxc
      simp [hid, hph]
    · simp [hxe]
  refine ⟨?_, ?_, ?_⟩
  · intro x hx
    obtain ⟨y, hy, hyx⟩ := List.mem_map.mp hx
    rw [← hyx, (hg y hy).1]
    exact hlt y hy
  · rw [List.pairwise_map]
    exact hids.imp_of_mem (fun ha hb hab => by
      rw [(hg _ ha).1, (hg _ hb).1]
      exact hab)
  · rw [List.pairwise_map]
    exact hphs.imp_of_mem (fun ha hb hab => by
      rw [(hg _ ha).2, (hg _ hb).2]
      exact hab)

lemma customersOk_append (db : Db) (c : Customer) (hok : customersOk db)
    (hid : c.id = db.nextId)
    (hph : ∀ x ∈ db.customers, x.phone ≠ c.phone) :
    customersOk { db with customers := db.customers ++ [c],
                          nextId := db.nextId + 1 } := by
  obtain ⟨hlt, hids, hphs⟩ := hok
  refine ⟨?_, ?_, ?_⟩
  · intro x hx
    rcases List.mem_append.mp hx with hx' | hx'
    · exact lt_trans (hlt x hx') (Nat.lt_succ_self _)
    · have hxc := List.mem_singleton.mp hx'
      subst hxc
      rw [hid]
      exact Nat.lt_succ_self _
  · rw [List.pairwise_append]
    refine ⟨hids, List.pairwise_singleton _ _, ?_⟩
    intro a ha b hb
    have hbc := List.mem_singleton.mp hb
    subst hbc
    rw [hid]
    exact Nat.ne_of_lt (hlt a ha)
  · rw [List.pairwise_append]
    refine ⟨hphs, List.pairwise_singleton _ _, ?_⟩
    intro a ha b hb
    have hbc := List.mem_singleton.mp hb
    subst hbc
    exact hph a ha

lemma resolveCustomerOrder_none (db : Db) (ci : CustomerInfo)
    (addr : Option DeliveryAddress)
    (h : db.customers.find? (fun x => x.phone == ci.phone) = none) :
    ∃ c', (resolveCustomerOrder db ci addr).1.customers =
        db.customers ++ [c'] ∧
      c'.phone = ci.phone ∧ c'.id = db.nextId ∧
      (resolveCustomerOrder db ci addr).1.nextId = db.nextId + 1 := by
  unfold resolveCustomerOrder
  rw [h]
  exact ⟨_, rfl, rfl, rfl, rfl⟩

lemma resolveCustomerOrder_found (db : Db) (ci : CustomerInfo)
    (addr : Option DeliveryAddress) (c : Customer)
    (h : db.customers.find? (fun x => x.phone == ci.phone) = some c) :
    ∃ c', (resolveCustomerOrder db ci addr).1.customers =
        db.customers.map (fun x => if x.id == c.id then c' else x) ∧
      c'.id = c.id ∧ c'.phone = c.phone ∧
      (c.name ≠ "" → c'.name = c.name) ∧
      (strTruthy c.email = true → c'.email = c.email) ∧
      (resolveCustomerOrder db ci addr).1.nextId = db.nextId := by
  unfold resolveCustomerOrder
  rw [h]
  refine ⟨_, rfl, rfl, rfl, ?_, ?_, rfl⟩
  · intro hn
    show (if c.name == "" && ci.name != "" then ci.name else c.name) = c.name
    simp [hn]
  · intro he
    show (if !(strTruthy c.email) && strTruthy ci.email then ci.email
          else c.email) = c.email
    simp [he]

lemma resolveCustomerOrder_customersOk (db : Db) (ci : CustomerInfo)
    (addr : Option DeliveryAddress) (hok : customersOk db) :
    customersOk (resolveCustomerOrder db ci addr).1 ∧
    db.nextId ≤ (resolveCustomerOrder db ci addr).1.nextId := by
  rcases hf : db.customers.find? (fun x => x.phone == ci.phone) with _ | c
  · have hph : ∀ x ∈ db.customers, x.phone ≠ ci.phone := by
      intro x hx
      simpa using List.find?_eq_none.mp hf x hx
    unfold resolveCustomerOrder
    rw [hf]
    exact ⟨customersOk_append db _ hok rfl hph, Nat.le_succ _⟩
  · unfold resolveCustomerOrder
    rw [hf]
    exact ⟨customersOk_replace db c _ hok (List.mem_of_find?_eq_some hf)
      rfl rfl, le_refl _⟩

lemma resolveCustomerRes_found (db : Db) (phone name : String) (c : Customer)
    (h : db.customers.find? (fun x => x.phone == phone) = some c) :
    (resolveCustomerRes db phone name).1 = db := by
  unfold resolveCustomerRes
  rw [h]

lemma resolveCustomerRes_none (db : Db) (phone name : String)
    (h : db.customers.find? (fun x => x.phone == phone) = none) :
    ∃ c', (resolveCustomerRes db phone name).1.customers =
        db.customers ++ [c'] ∧
      c'.phone = phone ∧ c'.id = db.nextId ∧
      (resolveCustomerRes db phone name).1.nextId = db.nextId + 1 := by
  unfold resolveCustomerRes
  rw [h]
  exact ⟨_, rfl, rfl, rfl, rfl⟩

lemma resolveCustomerRes_customersOk (db : Db) (phone name : String)
    (hok : customersOk db) :
    customersOk (resolveCustomerRes db phone name).1 ∧
    db.nextId ≤ (resolveCustomerRes db phone name).1.nextId := by
  rcases hf : db.customers.find? (fun x => x.phone == phone) with _ | c
  · have hph : ∀ x ∈ db.customers, x.phone ≠ phone := by
      intro x hx
      simpa using List.find?_eq_none.mp hf x hx
    unfold resolveCustomerRes
    rw [hf]
    exact ⟨customersOk_append db _ hok rfl hph, Nat.le_succ _⟩
  · rw [resolveCustomerRes_found db phone name c hf]
    exact ⟨hok, le_refl _⟩

lemma reservationCreate_ok_elim (db : Db) (input : CreateReservationInput)
    (db' : Db) (r : Reservation)
    (h : reservationCreate db input = .ok (db', r)) :
    db'.customers =
      (resolveCustomerRes db input.customerPhone input.customerName).1.customers ∧
    db'.nextId =
      (resolveCustomerRes db input.customerPhone input.customerName).1.nextId
        + 1 ∧
    r.customerPhone = input.customerPhone ∧
    r.status = .PENDING := by
  unfold reservationCreate at h
  split at h
  · simp at h
  · split at h
    · simp at h
    · split at h
      · simp at h
      · split at h
        · simp at h
        · split at h
          · simp at h
          · simp only [Except.ok.injEq, Prod.mk.injEq] at h
            obtain ⟨hdb, hr⟩ := h
            subst hdb
            subst hr
            exact ⟨rfl, rfl, rfl, rfl⟩

lemma orderCreate_customersOk (db : Db) (input : CreateOrderInput) (db' : Db)
    (o : OrderRec) (h : orderCreate db input = .ok (db', o))
    (hok : customersOk db) : customersOk db' := by
  obtain ⟨s, ps, fee, _, _, _, _, _, _, _, _, _, hcust, hnext, _⟩ :=
    orderCreate_ok_elim db input db' o h
  obtain ⟨⟨hlt, hids, hphs⟩, _⟩ :=
    resolveCustomerOrder_customersOk db input.customerInfo
      input.deliveryAddress hok
  refine ⟨?_, ?_, ?_⟩
  · intro c hc
    rw [hcust] at hc
    rw [hnext]
    exact lt_trans (hlt c hc) (Nat.lt_succ_self _)
  · rw [hcust]
    exact hids
  · rw [hcust]
    exact hphs

lemma reservationCreate_customersOk (db : Db) (input : CreateReservationInput)
    (db' : Db) (r : Reservation)
    (h : reservationCreate db input = .ok (db', r))
    (hok : customersOk db) : customersOk db' := by
  obtain ⟨hcust, hnext, _, _⟩ := reservationCreate_ok_elim db input db' r h
  obtain ⟨⟨hlt, hids, hphs⟩, _⟩ :=
    resolveCustomerRes_customersOk db input.customerPhone
      input.customerName hok
  refine ⟨?_, ?_, ?_⟩
  · intro c hc
    rw [hcust] at hc
    rw [hnext]
    exact lt_trans (hlt c hc) (Nat.lt_succ_self _)
  · rw [hcust]
    exact hids
  · rw [hcust]
    exact hphs

lemma applyCreate_customersOk (db : Db) (req : CreateReq)
    (hok : customersOk db) : customersOk (applyCreate db req) := by
  rcases req with input | input
  · show customersOk (match orderCreate db input with
      | .ok (db', _) => db'
      | .error _ => db)
    rcases hc : orderCreate db input with e | ⟨db', o⟩
    · exact hok
    · exact orderCreate_customersOk db input db' o hc hok
  · show customersOk (match reservationCreate db input with
      | .ok (db', _) => db'
      | .error _ => db)
    rcases hc : reservationCreate db input with e | ⟨db', r⟩
    · exact hok
    · exact reservationCreate_customersOk db input db' r hc hok

/-- C7: across any interleaved sequence of `order.create` and
`reservation.create` calls, at most one Customer row exists per phone (the
phones stay pairwise distinct); a call whose phone matches an existing
customer adds no row — `order.create` at most rewrites the matched row,
keeping its id and phone and never overwriting a non-empty name or email,
and `reservation.create` leaves the table untouched — while a call whose
phone matches no customer appends exactly one row carrying that phone. -/
theorem customer_unique_per_phone :
    (∀ db req, customersOk db → customersOk (applyCreate db req)) ∧
    (∀ (db : Db) (reqs : List CreateReq), customersOk db →
       (reqs.foldl applyCreate db).customers.Pairwise
         (fun a b => a.phone ≠ b.phone)) ∧
    (∀ db input db' o, orderCreate db input = .ok (db', o) →
       (∀ c, db.customers.find?
             (fun x => x.phone == input.customerInfo.phone) = some c →
          db'.customers.length = db.customers.length ∧
          ∃ c', db'.customers =
              db.customers.map (fun x => if x.id == c.id then c' else x) ∧
            c'.id = c.id ∧ c'.phone = c.phone ∧
            (c.name ≠ "" → c'.name = c.name) ∧
            (strTruthy c.email = true → c'.email = c.email)) ∧
       (db.customers.find?
            (fun x => x.phone == input.customerInfo.phone) = none →
          ∃ c', c'.phone = input.customerInfo.phone ∧
            db'.customers = db.customers ++ [c'])) ∧
    (∀ db input db' r, reservationCreate db input = .ok (db', r) →
       (∀ c, db.customers.find?
             (fun x => x.phone == input.customerPhone) = some c →
          db'.customers = db.customers) ∧
       (db.customers.find? (fun x => x.phone == input.customerPhone) = none →
          ∃ c', c'.phone = input.customerPhone ∧
            db'.customers = db.customers ++ [c'])) := by
  refine ⟨applyCreate_customersOk, fun db reqs hok => ?_,
    fun db input db' o h => ⟨fun c hf => ?_, fun hf => ?_⟩,
    fun db input db' r h => ⟨fun c hf => ?_, fun hf => ?_⟩⟩
  · have hall : customersOk (reqs.foldl applyCreate db) := by
      induction reqs generalizing db with
      | nil => exact hok
      | cons req rest ih => exact ih _ (applyCreate_customersOk db req hok)
    exact hall.2.2
  · obtain ⟨s, ps, fee, _, _, _, _, _, _, _, _, _, hcust, _, _⟩ :=
      orderCreate_ok_elim db input db' o h
    obtain ⟨c', hmap, hid, hph, hname, hemail⟩ :=
      resolveCustomerOrder_found db input.customerInfo input.deliveryAddress
        c hf
    rw [hcust, hmap]
    exact ⟨List.length_map _ _, c', rfl, hid, hph, hname, hemail.1⟩
  · obtain ⟨s, ps, fee, _, _, _, _, _, _, _, _, _, hcust, _, _⟩ :=
      orderCreate_ok_elim db input db' o h
    obtain ⟨c', happ, hph, _, _⟩ :=
      resolveCustomerOrder_none db input.customerInfo input.deliveryAddress hf
    exact ⟨c', hph, by rw [hcust, happ]⟩
  · obtain ⟨hcust, _, _, _⟩ := reservationCreate_ok_elim db input db' r h
    rw [hcust,
      resolveCustomerRes_found db input.customerPhone input.customerName c hf]
  · obtain ⟨hcust, _, _, _⟩ := reservationCreate_ok_elim db input db' r h
    obtain ⟨c', happ, hph, _, _⟩ :=
      resolveCustomerRes_none db input.customerPhone input.customerName hf
    exact ⟨c', hph, by rw [hcust, happ]⟩

/-- C7 witness: on the empty customer table, the concrete order creation
appends exactly one customer row with the request's phone, and the
resulting store still has pairwise-distinct customer phones. -/
theorem customer_unique_per_phone_witness :
    customersOk (applyCreate exDb (.order exTakeoutInput)) ∧
    ([CreateReq.order exTakeoutInput].foldl applyCreate
        exDb).customers.Pairwise (fun a b => a.phone ≠ b.phone) ∧
    (∃ c', c'.phone = exTakeoutInput.customerInfo.phone ∧
       (applyCreate exDb (.order exTakeoutInput)).customers =
         exDb.customers ++ [c']) := by
  have hok : customersOk exDb := by
    refine ⟨?_, ?_, ?_⟩ <;> simp [customersOk, exDb]
  refine ⟨customer_unique_per_phone.1 exDb (.order exTakeoutInput) hok,
    customer_unique_per_phone.2.1 exDb [CreateReq.order exTakeoutInput] hok,
    ?_⟩
  obtain ⟨db', o, hcr⟩ :
      ∃ db' o, orderCreate exDb exTakeoutInput = .ok (db', o) := ⟨_, _, rfl⟩
  obtain ⟨c', hph, hcust⟩ :=
    (customer_unique_per_phone.2.2.1 exDb exTakeoutInput db' o hcr).2 rfl
  refine ⟨c', hph, ?_⟩
  show (match orderCreate exDb exTakeoutInput with
    | .ok (db', _) => db'
    | .error _ => exDb).customers = _
  rw [hcr]
  exact hcust

end Ordo
